import Mathlib

/-!
Verification of the dircmp utility (src/dircmp.py) against its design
specification.  The program enumerates the regular files under two
directory roots, builds a size-indexed map of the target tree, sorts the
source entries, and reports every source file that has no byte-identical
counterpart in the target tree.

The shallow embedding below models:
  - the file system as a finite tree of named regular files (each file
    carries its byte content and a modification time; the mtime field
    stands for the stat metadata that the comparison must ignore);
  - os.walk together with the hidden-entry pruning of
    get_directory_file_paths (dircmp.py lines 186-204);
  - sizes_paths (lines 177-180), the sort of line 130 with
    key=itemgetter(1) (note: item 1 of a (size, path) tuple is the path),
    dict_of_lists (lines 214-221), the defaultdict item access of
    line 160, file_match via filecmp.cmp(..., False) (lines 228-230),
    the resolution loop of find_unmatched (lines 145-171), and the
    reporting and exit behaviour of main (lines 104-120).

File contents are byte lists (List Nat); paths are the strings the
program manipulates, produced by os.path.join.  Python exceptions are
modelled with Except where a claim depends on them; the float progress
arithmetic of the progress bar is modelled by exact rational arithmetic,
which collapses to natural division (the progress value never influences
the result, only the rendered bar).
-/

namespace Dircmp

/-- A regular file as seen on disk once enumerated: its full path string,
its byte content, and a stat modification time (metadata that content
comparison must not consult). -/
structure FsFile where
  path : String
  content : List Nat
  mtime : Nat
deriving DecidableEq

/-- A regular file as stored inside a directory: bare name, bytes, mtime. -/
structure PyFile where
  name : String
  content : List Nat
  mtime : Nat
deriving DecidableEq

mutual
/-- A directory of the file system: the regular files it holds directly and
its subdirectories.  The two lists mirror the file_name_list and
folder_name_list that os.walk hands to each level of
get_directory_file_paths. -/
inductive Tree where
  | mk (files : List PyFile) (dirs : DirList)
/-- The list of named subdirectories of a directory. -/
inductive DirList where
  | nil
  | cons (name : String) (sub : Tree) (rest : DirList)
end

/-- Hidden-entry test of dircmp.py lines 198 and 201: the first character of
the entry name equals the dot marker.  File system entry names are nonempty;
for the empty string this returns false. -/
def is_hidden_name (s : String) : Bool :=
  match s.data with
  | [] => false
  | c :: _ => c == '.'

/-- os.path.join for a directory path and an entry name, as used on
line 204: the separator character between the two components. -/
def os_path_join (a b : String) : String := a ++ "/" ++ b

mutual
/-- Embedding of get_directory_file_paths (dircmp.py lines 186-204) run at
directory path top over the directory t: yields every reachable regular
file in os.walk preorder.  When include_hidden is false the files whose
name starts with the marker are dropped from the output and the hidden
subdirectories are pruned before descent (the in-place update of
folder_name_list on line 201 is rendered as the per-entry guard in
walk_subdirs).  Each result carries the bytes and mtime of the file it
points to, standing for the later os.path.getsize and filecmp reads. -/
def get_directory_file_paths (top : String) (t : Tree) (include_hidden : Bool) : List FsFile :=
  match t with
  | .mk files dirs =>
    (if include_hidden then files else files.filter (fun f => !(is_hidden_name f.name))).map
      (fun f => ⟨os_path_join top f.name, f.content, f.mtime⟩)
    ++ walk_subdirs top dirs include_hidden
/-- Descent of os.walk into the (possibly pruned) subdirectory list. -/
def walk_subdirs (top : String) (ds : DirList) (include_hidden : Bool) : List FsFile :=
  match ds with
  | .nil => []
  | .cons n sub rest =>
    (if include_hidden || !(is_hidden_name n) then
      get_directory_file_paths (os_path_join top n) sub include_hidden
    else [])
    ++ walk_subdirs top rest include_hidden
end

/-- Embedding of sizes_paths (dircmp.py lines 177-180): pair every
enumerated file with its os.path.getsize value, the byte length. -/
def sizes_paths (top : String) (t : Tree) (include_hidden : Bool) : List (Nat × FsFile) :=
  (get_directory_file_paths top t include_hidden).map (fun f => (f.content.length, f))

/-- Python string comparison on code point lists: lexicographic by the
numeric code of each character, shorter string first on a tie prefix. -/
def py_str_lt : List Char → List Char → Bool
  | [], [] => false
  | [], _ :: _ => true
  | _ :: _, [] => false
  | a :: as, b :: bs =>
    if a.toNat < b.toNat then true
    else if b.toNat < a.toNat then false
    else py_str_lt as bs

/-- One insertion step of a stable ascending sort keyed on item 1 of each
tuple, which for the (size, path) tuples of sizes_paths is the path
string.  This models the comparison behaviour of line 130,
sorted(..., key=itemgetter(1)): an element is placed before the first
element whose key is strictly greater, so equal keys keep their original
relative order. -/
def py_insert (e : Nat × FsFile) : List (Nat × FsFile) → List (Nat × FsFile)
  | [] => [e]
  | f :: fs =>
    if py_str_lt e.2.path.data f.2.path.data then e :: f :: fs
    else f :: py_insert e fs

/-- Embedding of the call sorted(size_file_path_tuple_list_l,
key=itemgetter(1)) on lines 130-131: a stable sort that keys on tuple
item 1.  Note that item 1 of a (size, path) tuple is the path string, not
the size. -/
def sorted_key_item1 (l : List (Nat × FsFile)) : List (Nat × FsFile) :=
  l.foldl (fun acc e => py_insert e acc) []

/-- The Candidate Sequence handed to the resolution loop: the source
entries as ordered by the sort of lines 130-131. -/
def candidate_list (directory_l : String) (t_l : Tree) (include_hidden : Bool) :
    List (Nat × FsFile) :=
  sorted_key_item1 (sizes_paths directory_l t_l include_hidden)

/-- The SizeIndex representation: an insertion-ordered association list
from file size to the bucket of target files of that size, standing for
the Python dict. -/
abbrev SizeDict := List (Nat × List FsFile)

/-- Appending a value to the bucket of a key, creating the bucket at the
end of the dict on first occurrence; this is d[key].append(value) on a
defaultdict(list), line 220. -/
def dict_append (d : SizeDict) (k : Nat) (v : FsFile) : SizeDict :=
  match d with
  | [] => [(k, [v])]
  | (k', vs) :: rest =>
    if k' = k then (k', vs ++ [v]) :: rest else (k', vs) :: dict_append rest k v

/-- Embedding of dict_of_lists (dircmp.py lines 214-221): fold the
(size, path) pairs into buckets keyed by size, keeping insertion order. -/
def dict_of_lists (item_list : List (Nat × FsFile)) : SizeDict :=
  item_list.foldl (fun d kv => dict_append d kv.1 kv.2) []

/-- Item access on a defaultdict(list), as performed on line 160: returns
the bucket of the key, and the dict state after the access.  When the key
is absent an empty bucket is created for it (appended at the end, matching
dict insertion order) and returned. -/
def dd_getitem (d : SizeDict) (k : Nat) : List FsFile × SizeDict :=
  match d with
  | [] => ([], [(k, [])])
  | (k', vs) :: rest =>
    if k' = k then (vs, (k', vs) :: rest)
    else
      let r := dd_getitem rest k
      (r.1, (k', vs) :: r.2)

/-- Pure bucket lookup with empty default: the value a reader observes for
a key, with an absent key behaving as an empty collection. -/
def lookup_default (d : SizeDict) (k : Nat) : List FsFile :=
  match d with
  | [] => []
  | (k', vs) :: rest => if k' = k then vs else lookup_default rest k

/-- Embedding of filecmp.cmp(file_l, file_r, False) for two regular files
(dircmp.py line 229): with shallow comparison disabled, the stat
signatures are consulted only for the sizes, and then the contents are
compared byte for byte; mtime and other metadata never influence the
outcome. -/
def filecmp_cmp (f g : FsFile) : Bool :=
  if f.content.length ≠ g.content.length then false else f.content == g.content

/-- Embedding of file_match (dircmp.py lines 228-230): some file of the
bucket compares byte-for-byte equal, with the short-circuiting any. -/
def file_match (f : FsFile) (file_path_list_r : List FsFile) : Bool :=
  file_path_list_r.any (fun g => filecmp_cmp f g)

/-- Number of filecmp.cmp calls the short-circuiting any of file_match
performs on a bucket: one per element up to and including the first
match. -/
def file_match_count (f : FsFile) : List FsFile → Nat
  | [] => 0
  | g :: gs => if filecmp_cmp f g then 1 else 1 + file_match_count f gs

/-- The resolution loop of find_unmatched (dircmp.py lines 151-165):
walk the candidate list, fetch the same-size bucket through the
defaultdict item access (threading the dict state it may extend), and
record the path of every candidate without a byte-identical bucket
entry, in traversal order. -/
def find_unmatched_loop : List (Nat × FsFile) → SizeDict → List String
  | [], _ => []
  | (size_l, f) :: rest, d =>
    let bd := dd_getitem d size_l
    if file_match f bd.1 then find_unmatched_loop rest bd.2
    else f.path :: find_unmatched_loop rest bd.2

/-- Embedding of find_unmatched (dircmp.py lines 123-171): build the
sorted source candidate list and the target size index, then run the
resolution loop. -/
def find_unmatched (directory_l directory_r : String) (t_l t_r : Tree)
    (include_hidden : Bool) : List String :=
  find_unmatched_loop (candidate_list directory_l t_l include_hidden)
    (dict_of_lists (sizes_paths directory_r t_r include_hidden))

/-- Python true division of naturals, raising ZeroDivisionError on a zero
divisor; the float value is modelled as an exact rational (only the
raising behaviour is observable downstream, since the quotient feeds the
progress bar rendering alone). -/
def py_truediv (a b : Nat) : Except String ℚ :=
  if b = 0 then .error "ZeroDivisionError" else .ok ((a : ℚ) / (b : ℚ))

/-- The resolution loop with the per-iteration progress computation of
line 167 made explicit: each iteration evaluates
100 * i / len(candidate list), which raises ZeroDivisionError when the
candidate list is empty; since the loop body only runs for a nonempty
list, the raise is unreachable.  An exception aborts the run and discards
the incomplete unmatched list. -/
def find_unmatched_loopE (len : Nat) : Nat → List (Nat × FsFile) → SizeDict →
    Except String (List String)
  | _, [], _ => .ok []
  | i, (size_l, f) :: rest, d =>
    let bd := dd_getitem d size_l
    match py_truediv (100 * i) len with
    | .error e => .error e
    | .ok _ =>
      (find_unmatched_loopE len (i + 1) rest bd.2).map
        (fun u => if file_match f bd.1 then u else f.path :: u)

/-- find_unmatched with the progress division instrumented as an
exception-aware computation. -/
def find_unmatchedE (directory_l directory_r : String) (t_l t_r : Tree)
    (include_hidden : Bool) : Except String (List String) :=
  let sorted_l := candidate_list directory_l t_l include_hidden
  find_unmatched_loopE sorted_l.length 0 sorted_l
    (dict_of_lists (sizes_paths directory_r t_r include_hidden))

/-- The report printed by main (dircmp.py lines 114-120): the single
no-unmatched line for an empty list, otherwise the header followed by one
source path per line in list order. -/
def report (unmatched : List String) : List String :=
  if unmatched = [] then ["No unmatched files."]
  else "Unmatched files:" :: unmatched

/-- Width of the progress bar body (dircmp.py line 56). -/
def pbar_char_len : Nat := 75

/-- A run of identical characters, for the bar rendering. -/
def char_run (c : Char) (n : Nat) : String := String.mk (List.replicate n c)

/-- The bar position after progress value 100 * i / n percent: the int and
floor-division chain of update_progress (line 66) evaluated exactly, which
collapses to pbar_char_len * i / n in natural division. -/
def progress_mark (n i : Nat) : Nat := pbar_char_len * i / n

/-- The stars printed by the update_progress calls of a run over n
candidates, together with the final progress counter. -/
def bar_updates (n : Nat) : String × Nat :=
  (List.range n).foldl
    (fun acc i =>
      let x := progress_mark n i
      (acc.1 ++ char_run '*' (x - acc.2), x))
    ("", 0)

/-- The single stdout line holding the whole progress bar: the frame and
backspaces of begin_progress, every update, and the closing stars and
bracket of end_progress (dircmp.py lines 58-73). -/
def progress_bar_line (n : Nat) : String :=
  "[" ++ char_run ' ' pbar_char_len ++ "]" ++ char_run (Char.ofNat 8) (pbar_char_len + 1)
  ++ (bar_updates n).1 ++ char_run '*' (pbar_char_len - (bar_updates n).2) ++ "]"

/-- Embedding of main after argument parsing (dircmp.py lines 104-120):
fs maps a command-line path to the directory it denotes, when it exists.
Returns the process exit status and the stdout lines: invalid roots are
reported and the process exits with status 2 before any scanning; on
success the preprocessing and comparison banners, the progress bar line
(and the blank line its trailing newline produces), and the report are
printed and the status is 0. -/
def main_run (fs : String → Option Tree) (include_hidden : Bool)
    (directory_l directory_r : String) : Nat × List String :=
  match fs directory_l with
  | none => (2, ["Invalid directory path: " ++ directory_l])
  | some t_l =>
    match fs directory_r with
    | none => (2, ["Invalid directory path: " ++ directory_r])
    | some t_r =>
      (0, ["Preprocessing...", "Comparing files...",
           progress_bar_line (candidate_list directory_l t_l include_hidden).length, ""]
          ++ report (find_unmatched directory_l directory_r t_l t_r include_hidden))

mutual
/-- Specification-side enumeration of every regular file of a directory,
annotated with the list of path segment names below the given root (its
own name and the names of its ancestor directories inside the tree).
This follows the spec sentence that filtering is applied per path-segment
name, and is the reference against which the hidden-entry filtering of
get_directory_file_paths is compared. -/
def enum_tree (top : String) (t : Tree) : List (FsFile × List String) :=
  match t with
  | .mk files dirs =>
    files.map (fun f => (⟨os_path_join top f.name, f.content, f.mtime⟩, [f.name]))
    ++ enum_subdirs top dirs
/-- Enumeration of the subdirectory list, prefixing each subdirectory name
onto the segment annotations of its subtree. -/
def enum_subdirs (top : String) (ds : DirList) : List (FsFile × List String) :=
  match ds with
  | .nil => []
  | .cons n sub rest =>
    (enum_tree (os_path_join top n) sub).map (fun x => (x.1, n :: x.2))
    ++ enum_subdirs top rest
end

/-- The bucket returned by a defaultdict item access is the value a pure
lookup with empty default observes. -/
theorem dd_getitem_fst (d : SizeDict) (k : Nat) :
    (dd_getitem d k).1 = lookup_default d k := by
  induction d with
  | nil => rfl
  | cons hd rest ih =>
    obtain ⟨k', vs⟩ := hd
    simp only [dd_getitem, lookup_default]
    split <;> simp [ih]

/-- A defaultdict item access never changes the value any later lookup
observes for any key: it can only create an empty bucket for an absent
key, which an empty-default lookup already reports as empty. -/
theorem lookup_default_dd_getitem (d : SizeDict) (k k' : Nat) :
    lookup_default (dd_getitem d k).2 k' = lookup_default d k' := by
  induction d with
  | nil =>
    simp only [dd_getitem, lookup_default]
    split <;> rfl
  | cons hd rest ih =>
    obtain ⟨k'', vs⟩ := hd
    simp only [dd_getitem, lookup_default]
    split
    · simp [lookup_default]
    · simp only [lookup_default]
      split <;> simp [ih]

/-- A key absent from the dict looks up to the empty bucket. -/
theorem lookup_default_of_not_mem (d : SizeDict) (k : Nat)
    (h : k ∉ d.map Prod.fst) : lookup_default d k = [] := by
  induction d with
  | nil => rfl
  | cons hd rest ih =>
    obtain ⟨k', vs⟩ := hd
    simp only [List.map_cons, List.mem_cons] at h
    push_neg at h
    simp only [lookup_default]
    rw [if_neg (fun he => h.1 he.symm)]
    exact ih h.2

/-- A defaultdict item access on an absent key returns the empty bucket
and appends the key, mapped to an empty bucket, at the end of the dict. -/
theorem dd_getitem_of_not_mem (d : SizeDict) (k : Nat)
    (h : k ∉ d.map Prod.fst) : dd_getitem d k = ([], d ++ [(k, [])]) := by
  induction d with
  | nil => rfl
  | cons hd rest ih =>
    obtain ⟨k', vs⟩ := hd
    simp only [List.map_cons, List.mem_cons] at h
    push_neg at h
    simp only [dd_getitem]
    rw [if_neg (fun he => h.1 he.symm)]
    simp [ih h.2]

/-- Appending a value to a bucket changes only the bucket of that key,
where the value arrives at the end. -/
theorem lookup_default_dict_append (d : SizeDict) (k k' : Nat) (v : FsFile) :
    lookup_default (dict_append d k v) k'
      = lookup_default d k' ++ (if k = k' then [v] else []) := by
  induction d with
  | nil =>
    simp only [dict_append, lookup_default]
    split <;> simp_all
  | cons hd rest ih =>
    obtain ⟨k'', vs⟩ := hd
    simp only [dict_append]
    by_cases h1 : k'' = k
    · subst h1
      simp only [if_pos rfl, lookup_default]
      by_cases h2 : k'' = k' <;> simp [h2]
    · rw [if_neg h1]
      simp only [lookup_default]
      by_cases h2 : k'' = k'
      · subst h2
        have : ¬ k = k'' := fun he => h1 he.symm
        simp [this]
      · simp [h2, ih]

/-- Folding entries into the dict extends every lookup by exactly the
values of that key, in entry order. -/
theorem lookup_default_foldl (items : List (Nat × FsFile)) (d : SizeDict) (k : Nat) :
    lookup_default (items.foldl (fun d kv => dict_append d kv.1 kv.2) d) k
      = lookup_default d k ++ (items.filter (fun kv => kv.1 == k)).map Prod.snd := by
  induction items generalizing d with
  | nil => simp
  | cons kv rest ih =>
    simp only [List.foldl_cons, List.filter_cons]
    rw [ih, lookup_default_dict_append]
    by_cases h : kv.1 = k <;> simp [h, List.append_assoc]

/-- The size index built by dict_of_lists buckets exactly the entries of
each size, in enumeration order. -/
theorem lookup_default_dict_of_lists (items : List (Nat × FsFile)) (k : Nat) :
    lookup_default (dict_of_lists items) k
      = (items.filter (fun kv => kv.1 == k)).map Prod.snd := by
  have h := lookup_default_foldl items [] k
  simpa [dict_of_lists] using h

/-- Filtering a mapped list is mapping the filtered list. -/
theorem filter_map_swap {α β : Type} (f : α → β) (p : β → Bool) (l : List α) :
    (l.map f).filter p = (l.filter (fun x => p (f x))).map f := by
  induction l with
  | nil => rfl
  | cons a l ih =>
    simp only [List.map_cons, List.filter_cons]
    by_cases h : p (f a) <;> simp [h, ih]

/-- The resolution loop keeps exactly the candidates whose bucket in the
current index holds no byte-identical file, and reports their paths in
traversal order; the defaultdict mutations the loop threads are
invisible to it. -/
theorem find_unmatched_loop_eq (xs : List (Nat × FsFile)) (d : SizeDict) :
    find_unmatched_loop xs d
      = (xs.filter (fun e => !(file_match e.2 (lookup_default d e.1)))).map
          (fun e => e.2.path) := by
  induction xs generalizing d with
  | nil => rfl
  | cons e rest ih =>
    obtain ⟨k, f⟩ := e
    simp only [find_unmatched_loop, List.filter_cons]
    rw [ih, dd_getitem_fst]
    simp only [lookup_default_dd_getitem]
    by_cases h : file_match f (lookup_default d k) <;> simp [h]

/-- Membership in an insertion step. -/
theorem mem_py_insert (x e : Nat × FsFile) (l : List (Nat × FsFile)) :
    x ∈ py_insert e l ↔ x = e ∨ x ∈ l := by
  induction l with
  | nil => simp [py_insert]
  | cons f fs ih =>
    simp only [py_insert]
    split
    · simp
    · simp only [List.mem_cons, ih]
      tauto

/-- Folding insertions only rearranges: every member of the result comes
from the accumulator or the input. -/
theorem mem_foldl_py_insert (l : List (Nat × FsFile)) (acc : List (Nat × FsFile))
    (x : Nat × FsFile) (h : x ∈ l.foldl (fun a e => py_insert e a) acc) :
    x ∈ acc ∨ x ∈ l := by
  induction l generalizing acc with
  | nil => simp_all
  | cons e rest ih =>
    simp only [List.foldl_cons] at h
    rcases ih (py_insert e acc) h with h1 | h1
    · rcases (mem_py_insert x e acc).1 h1 with h2 | h2
      · simp [h2]
      · simp [h2]
    · simp [h1]

/-- The sort of lines 130-131 is a permutation-level rearrangement: its
members are members of the input. -/
theorem mem_sorted_key_item1 (l : List (Nat × FsFile)) (x : Nat × FsFile)
    (h : x ∈ sorted_key_item1 l) : x ∈ l := by
  rcases mem_foldl_py_insert l [] x h with h1 | h1
  · simp at h1
  · exact h1

/-- Every candidate entry records as its first component the byte length
of the file it carries. -/
theorem candidate_size_eq (directory_l : String) (t_l : Tree) (include_hidden : Bool)
    (e : Nat × FsFile) (he : e ∈ candidate_list directory_l t_l include_hidden) :
    e.1 = e.2.content.length := by
  have h1 : e ∈ sizes_paths directory_l t_l include_hidden :=
    mem_sorted_key_item1 _ _ he
  simp only [sizes_paths, List.mem_map] at h1
  obtain ⟨f, _, rfl⟩ := h1
  rfl

/-- With a nonzero candidate count the instrumented loop never raises:
it returns exactly the pure resolution result. -/
theorem find_unmatched_loopE_ok (len : Nat) (hlen : len ≠ 0) (i : Nat)
    (xs : List (Nat × FsFile)) (d : SizeDict) :
    find_unmatched_loopE len i xs d = .ok (find_unmatched_loop xs d) := by
  induction xs generalizing i d with
  | nil => rfl
  | cons e rest ih =>
    obtain ⟨k, f⟩ := e
    simp only [find_unmatched_loopE, find_unmatched_loop, py_truediv, if_neg hlen]
    rw [ih]
    by_cases h : file_match f (dd_getitem d k).1 <;> simp [h, Except.map]

mutual
/-- Hidden-entry filtering against the annotated enumeration, directory
case: with hidden entries included the walk enumerates every file, and
with them excluded it enumerates exactly the files none of whose segment
names is hidden. -/
theorem walk_enum_tree (top : String) (t : Tree) :
    get_directory_file_paths top t true = (enum_tree top t).map (fun x => x.1)
  ∧ get_directory_file_paths top t false =
      ((enum_tree top t).filter (fun x => !(x.2.any is_hidden_name))).map (fun x => x.1) := by
  cases t with
  | mk files dirs =>
    have hd := walk_enum_dirs top dirs
    refine ⟨?_, ?_⟩
    · simp only [get_directory_file_paths, enum_tree, if_true, List.map_append, List.map_map]
      rw [hd.1]
      simp [Function.comp]
    · simp only [get_directory_file_paths, enum_tree, Bool.false_eq_true, if_false,
        List.filter_append, List.map_append, filter_map_swap, List.map_map,
        List.any_cons, List.any_nil, Bool.or_false]
      rw [hd.2]
      simp [Function.comp]
/-- Hidden-entry filtering against the annotated enumeration,
subdirectory-list case. -/
theorem walk_enum_dirs (top : String) (ds : DirList) :
    walk_subdirs top ds true = (enum_subdirs top ds).map (fun x => x.1)
  ∧ walk_subdirs top ds false =
      ((enum_subdirs top ds).filter (fun x => !(x.2.any is_hidden_name))).map (fun x => x.1) := by
  cases ds with
  | nil => exact ⟨rfl, rfl⟩
  | cons n sub rest =>
    have hs := walk_enum_tree (os_path_join top n) sub
    have hr := walk_enum_dirs top rest
    refine ⟨?_, ?_⟩
    · simp only [walk_subdirs, enum_subdirs, Bool.true_or, if_true, List.map_append,
        List.map_map]
      rw [hs.1, hr.1]
      simp [Function.comp]
    · simp only [walk_subdirs, enum_subdirs, Bool.false_or, List.filter_append,
        List.map_append, filter_map_swap, List.map_map, List.any_cons]
      rw [hr.2]
      by_cases hn : is_hidden_name n
      · simp [hn]
      · simp only [hn, Bool.not_false, if_true, Bool.false_or]
        rw [hs.2]
        simp [Function.comp]
end

mutual
/-- The walk only uses the root path string as plain text to
join onto: walking under a longer root relabels every reported path by
the extra leading text and changes nothing else, directory case. -/
theorem walk_shift_tree (a b : String) (t : Tree) (include_hidden : Bool) :
    get_directory_file_paths (a ++ b) t include_hidden
      = (get_directory_file_paths b t include_hidden).map
          (fun f => ⟨a ++ f.path, f.content, f.mtime⟩) := by
  cases t with
  | mk files dirs =>
    have hd := walk_shift_dirs a b dirs include_hidden
    simp only [get_directory_file_paths, List.map_append, List.map_map, os_path_join]
    rw [hd]
    simp [String.append_assoc]
/-- Root-relabelling of the walk, subdirectory-list case. -/
theorem walk_shift_dirs (a b : String) (ds : DirList) (include_hidden : Bool) :
    walk_subdirs (a ++ b) ds include_hidden
      = (walk_subdirs b ds include_hidden).map
          (fun f => ⟨a ++ f.path, f.content, f.mtime⟩) := by
  cases ds with
  | nil => rfl
  | cons n sub rest =>
    have hr := walk_shift_dirs a b rest include_hidden
    have hs := walk_shift_tree a (os_path_join b n) sub include_hidden
    have hj : os_path_join (a ++ b) n = a ++ os_path_join b n := by
      simp [os_path_join, String.append_assoc]
    simp only [walk_subdirs, List.map_append, hj, hr]
    congr 1
    by_cases hg : include_hidden || !(is_hidden_name n)
    · simp only [hg, if_true, hs]
    · simp [hg]
end

/-- C3, counterexample to the claim as stated: querying the size index
for an absent size does mutate the index.  On the index built from one
target entry of size 1, the defaultdict item access for size 2 leaves the
dict different from what dict_of_lists built: the key 2 has been inserted
with an empty bucket. -/
theorem c3_lookup_mutates_counterexample :
    (dd_getitem (dict_of_lists [(1, ⟨"/t/a", [7], 0⟩)]) 2).2
      ≠ dict_of_lists [(1, ⟨"/t/a", [7], 0⟩)] := by
  decide

/-- C3 amended: a lookup of a size absent from the SizeIndex behaves as an
empty collection rather than an error; however, being a defaultdict item
access, it inserts the absent key at the end of the index mapped to an
empty bucket.  This mutation changes no value any lookup observes for any
key. -/
theorem c3_absent_lookup_amended (d : SizeDict) (k : Nat)
    (h : k ∉ d.map Prod.fst) :
    (dd_getitem d k).1 = []
  ∧ (dd_getitem d k).2 = d ++ [(k, [])]
  ∧ ∀ k', lookup_default (dd_getitem d k).2 k' = lookup_default d k' := by
  refine ⟨?_, dd_getitem_of_not_mem d k h ▸ rfl, fun k' => lookup_default_dd_getitem d k k'⟩
  rw [dd_getitem_fst]
  exact lookup_default_of_not_mem d k h

/-- Witness for C3 amended at a concrete index with one bucket of size 1,
queried for the absent size 2. -/
theorem c3_absent_lookup_witness :
    (dd_getitem [(1, [⟨"/t/a", [7], 0⟩])] 2).1 = []
  ∧ (dd_getitem [(1, [⟨"/t/a", [7], 0⟩])] 2).2 = [(1, [⟨"/t/a", [7], 0⟩]), (2, [])]
  ∧ lookup_default (dd_getitem [(1, [⟨"/t/a", [7], 0⟩])] 2).2 1
      = lookup_default [(1, [⟨"/t/a", [7], 0⟩])] 1 := by
  have h := c3_absent_lookup_amended [(1, [⟨"/t/a", [7], 0⟩])] 2 (by decide)
  exact ⟨h.1, by rw [h.2.1]; rfl, h.2.2 1⟩

/-- C4: when includeHidden is false, a path is excluded from enumeration
exactly when some path-segment name below the root begins with the hidden
marker (hidden files are dropped at their level and hidden directories
are pruned before descent), and when includeHidden is true every file of
the tree is enumerated.  The same enumerator serves the source and the
target tree. -/
theorem c4_hidden_filtering (top : String) (t : Tree) :
    get_directory_file_paths top t true = (enum_tree top t).map (fun x => x.1)
  ∧ get_directory_file_paths top t false =
      ((enum_tree top t).filter (fun x => !(x.2.any is_hidden_name))).map (fun x => x.1) :=
  walk_enum_tree top t

/-- C5: a candidate whose size is absent from the SizeIndex receives the
empty bucket, zero byte comparisons are performed on it, and its path is
recorded as unmatched immediately; and with an empty target enumeration
every source candidate is reported unmatched, in candidate order. -/
theorem c5_absent_size_unmatched :
    (∀ (d : SizeDict) (size_l : Nat) (f : FsFile) (rest : List (Nat × FsFile)),
      size_l ∉ d.map Prod.fst →
        (dd_getitem d size_l).1 = []
      ∧ file_match_count f (dd_getitem d size_l).1 = 0
      ∧ find_unmatched_loop ((size_l, f) :: rest) d
          = f.path :: find_unmatched_loop rest (dd_getitem d size_l).2)
  ∧ ∀ (directory_l directory_r : String) (t_l t_r : Tree) (include_hidden : Bool),
      get_directory_file_paths directory_r t_r include_hidden = [] →
      find_unmatched directory_l directory_r t_l t_r include_hidden
        = (candidate_list directory_l t_l include_hidden).map (fun e => e.2.path) := by
  constructor
  · intro d size_l f rest h
    have h1 : (dd_getitem d size_l).1 = [] := by
      rw [dd_getitem_fst]
      exact lookup_default_of_not_mem d size_l h
    refine ⟨h1, by rw [h1]; rfl, ?_⟩
    simp only [find_unmatched_loop, h1]
    simp [file_match]
  · intro directory_l directory_r t_l t_r include_hidden h
    have hd : dict_of_lists (sizes_paths directory_r t_r include_hidden) = [] := by
      simp [dict_of_lists, sizes_paths, h]
    rw [find_unmatched, hd, find_unmatched_loop_eq]
    simp [lookup_default, file_match]

/-- Witness for C5: a dict holding only size 3 queried for size 5, and a
run against a target tree with no files. -/
theorem c5_witness :
    ((dd_getitem [(3, [⟨"/t/g", [1, 2, 3], 0⟩])] 5).1 = []
  ∧ file_match_count ⟨"/s/f", [9, 9, 9, 9, 9], 4⟩
      (dd_getitem [(3, [⟨"/t/g", [1, 2, 3], 0⟩])] 5).1 = 0
  ∧ find_unmatched_loop [(5, ⟨"/s/f", [9, 9, 9, 9, 9], 4⟩)] [(3, [⟨"/t/g", [1, 2, 3], 0⟩])]
      = "/s/f" :: find_unmatched_loop [] (dd_getitem [(3, [⟨"/t/g", [1, 2, 3], 0⟩])] 5).2)
  ∧ find_unmatched "L" "R" (Tree.mk [⟨"x", [1], 0⟩] .nil) (Tree.mk [] .nil) false
      = (candidate_list "L" (Tree.mk [⟨"x", [1], 0⟩] .nil) false).map (fun e => e.2.path) := by
  refine ⟨c5_absent_size_unmatched.1 _ 5 _ [] (by decide),
    c5_absent_size_unmatched.2 "L" "R" _ _ false ?_⟩
  simp [get_directory_file_paths, walk_subdirs]

/-- C7: an invalid source root is reported with its path and exit status
2 before any scanning output; an invalid target root likewise; and when
both roots denote directories the run completes with exit status 0,
whatever the comparison finds. -/
theorem c7_exit_codes (fs : String → Option Tree) (include_hidden : Bool)
    (directory_l directory_r : String) :
    (fs directory_l = none →
       main_run fs include_hidden directory_l directory_r
         = (2, ["Invalid directory path: " ++ directory_l]))
  ∧ (∀ t_l, fs directory_l = some t_l → fs directory_r = none →
       main_run fs include_hidden directory_l directory_r
         = (2, ["Invalid directory path: " ++ directory_r]))
  ∧ (∀ t_l t_r, fs directory_l = some t_l → fs directory_r = some t_r →
       (main_run fs include_hidden directory_l directory_r).1 = 0) := by
  refine ⟨fun h => by simp [main_run, h],
    fun t_l h1 h2 => by simp [main_run, h1, h2],
    fun t_l t_r h1 h2 => by simp [main_run, h1, h2]⟩

/-- Witness for C7 on concrete command lines: a missing source root, a
missing target root, and a pair of valid roots. -/
theorem c7_witness :
    main_run (fun _ => none) false "missing_l" "missing_r"
      = (2, ["Invalid directory path: " ++ "missing_l"])
  ∧ main_run (fun s => if s = "L" then some (Tree.mk [] .nil) else none) false "L" "missing_r"
      = (2, ["Invalid directory path: " ++ "missing_r"])
  ∧ (main_run (fun _ => some (Tree.mk [] .nil)) false "L" "R").1 = 0 := by
  exact ⟨(c7_exit_codes _ false _ _).1 rfl,
    (c7_exit_codes _ false "L" "missing_r").2.1 (Tree.mk [] .nil) rfl rfl,
    (c7_exit_codes _ false _ _).2.2 (Tree.mk [] .nil) (Tree.mk [] .nil) rfl rfl⟩

/-- C8: the comparison result is a deterministic function of the
enumerated trees and the flag: any two runs over states that enumerate to
the same file lists produce the same UnmatchedList, paths and order
alike. -/
theorem c8_deterministic (directory_l directory_r : String) (include_hidden : Bool)
    (t_l t_l' t_r t_r' : Tree)
    (h_l : get_directory_file_paths directory_l t_l include_hidden
         = get_directory_file_paths directory_l t_l' include_hidden)
    (h_r : get_directory_file_paths directory_r t_r include_hidden
         = get_directory_file_paths directory_r t_r' include_hidden) :
    find_unmatched directory_l directory_r t_l t_r include_hidden
      = find_unmatched directory_l directory_r t_l' t_r' include_hidden := by
  simp only [find_unmatched, candidate_list, sizes_paths, h_l, h_r]

/-- Witness for C8: two source states whose enumerations agree (one hides
its extra file inside a pruned dot-directory) and two target states that
likewise enumerate equally. -/
theorem c8_witness :
    find_unmatched "L" "R"
        (Tree.mk [] (DirList.cons ".git" (Tree.mk [⟨"f", [1], 0⟩] .nil) .nil))
        (Tree.mk [] .nil) false
      = find_unmatched "L" "R" (Tree.mk [] .nil) (Tree.mk [⟨".h", [2], 3⟩] .nil) false := by
  refine c8_deterministic "L" "R" false _ _ _ _ ?_ ?_
  · simp [get_directory_file_paths, walk_subdirs, is_hidden_name]
  · simp [get_directory_file_paths, walk_subdirs, is_hidden_name]

/-- C9: hidden-name filtering never applies to the supplied root itself.
A root whose name starts with the marker is itself a hidden name, yet the
walk under it enumerates exactly the same files as under any other root
name, merely relabelled by the root text, so its contents are fully
enumerated in the same number. -/
theorem c9_hidden_root_enumerated (include_hidden : Bool) (name : String) (t : Tree) :
    is_hidden_name ("." ++ name) = true
  ∧ get_directory_file_paths ("." ++ name) t include_hidden
      = (get_directory_file_paths name t include_hidden).map
          (fun f => ⟨"." ++ f.path, f.content, f.mtime⟩)
  ∧ (get_directory_file_paths ("." ++ name) t include_hidden).length
      = (get_directory_file_paths name t include_hidden).length := by
  refine ⟨?_, walk_shift_tree "." name t include_hidden, ?_⟩
  · simp [is_hidden_name, String.data_append]
  · rw [walk_shift_tree "." name t include_hidden, List.length_map]

/-- C10: when the source tree enumerates no files the sorted candidate
list is empty, so the resolution loop body, and with it the progress
division by the candidate count, never executes: the instrumented run
returns ok with an empty UnmatchedList instead of a ZeroDivisionError,
and the report is the no-unmatched line. -/
theorem c10_empty_source (directory_l directory_r : String) (t_l t_r : Tree)
    (include_hidden : Bool)
    (h : get_directory_file_paths directory_l t_l include_hidden = []) :
    find_unmatchedE directory_l directory_r t_l t_r include_hidden = .ok []
  ∧ find_unmatched directory_l directory_r t_l t_r include_hidden = []
  ∧ report (find_unmatched directory_l directory_r t_l t_r include_hidden)
      = ["No unmatched files."] := by
  have hc : candidate_list directory_l t_l include_hidden = [] := by
    simp [candidate_list, sizes_paths, h, sorted_key_item1]
  have h2 : find_unmatched directory_l directory_r t_l t_r include_hidden = [] := by
    rw [find_unmatched, hc]
    rfl
  refine ⟨?_, h2, by rw [h2]; rfl⟩
  rw [find_unmatchedE]
  simp only [hc]
  rfl

/-- Witness for C10: an empty source directory against a one-file target
directory. -/
theorem c10_witness :
    find_unmatchedE "L" "R" (Tree.mk [] .nil) (Tree.mk [⟨"y", [1, 2], 7⟩] .nil) false = .ok []
  ∧ find_unmatched "L" "R" (Tree.mk [] .nil) (Tree.mk [⟨"y", [1, 2], 7⟩] .nil) false = []
  ∧ report (find_unmatched "L" "R" (Tree.mk [] .nil) (Tree.mk [⟨"y", [1, 2], 7⟩] .nil) false)
      = ["No unmatched files."] :=
  c10_empty_source "L" "R" _ _ false (by simp [get_directory_file_paths, walk_subdirs])

/-- The size-index bucket of a key, over the index built from the
enumerated target files, is exactly the sublist of target files of that
byte length, in enumeration order. -/
theorem bucket_eq (R : List FsFile) (k : Nat) :
    lookup_default (dict_of_lists (R.map (fun f => (f.content.length, f)))) k
      = R.filter (fun g => g.content.length == k) := by
  rw [lookup_default_dict_of_lists, filter_map_swap]
  simp only [List.map_map]
  have hid : (Prod.snd ∘ fun f : FsFile => (f.content.length, f)) = id := rfl
  rw [hid, List.map_id]

/-- Under the size pre-filter, the byte comparison coincides with content
equality of the two files. -/
theorem cmp_with_len (f g : FsFile) :
    ((g.content.length == f.content.length) && filecmp_cmp f g)
      = ((g.content.length == f.content.length) && (g.content == f.content)) := by
  by_cases hl : g.content.length = f.content.length
  · by_cases hc : g.content = f.content
    · simp [filecmp_cmp, hl, hc]
    · have hc' : f.content ≠ g.content := fun he => hc he.symm
      simp [filecmp_cmp, hl, hc, hc']
  · have hb : (g.content.length == f.content.length) = false :=
      beq_eq_false_iff_ne.mpr hl
    simp [hb]

/-- C2: a processed source file is reported unmatched exactly when no
target-tree file of equal byte length and byte-identical content exists,
so it is matched iff such a target file exists; and the byte comparison
itself holds iff the two contents are equal, independent of path and
mtime metadata. -/
theorem c2_match_iff_content (directory_l directory_r : String) (t_l t_r : Tree)
    (include_hidden : Bool) :
    find_unmatched directory_l directory_r t_l t_r include_hidden
      = ((candidate_list directory_l t_l include_hidden).filter (fun e =>
          !((get_directory_file_paths directory_r t_r include_hidden).any (fun g =>
              (g.content.length == e.2.content.length) && (g.content == e.2.content))))).map
          (fun e => e.2.path)
  ∧ ∀ f g : FsFile, filecmp_cmp f g = true ↔ f.content = g.content := by
  constructor
  · rw [find_unmatched, find_unmatched_loop_eq]
    congr 1
    apply List.filter_congr
    intro e he
    have hsz : e.1 = e.2.content.length :=
      candidate_size_eq directory_l t_l include_hidden e he
    have hb : lookup_default (dict_of_lists (sizes_paths directory_r t_r include_hidden)) e.1
        = (get_directory_file_paths directory_r t_r include_hidden).filter
            (fun g => g.content.length == e.1) :=
      bucket_eq (get_directory_file_paths directory_r t_r include_hidden) e.1
    rw [file_match, hb, List.any_filter, hsz]
    simp only [cmp_with_len]
  · intro f g
    by_cases h : f.content.length = g.content.length
    · simp [filecmp_cmp, h]
    · have hne : f.content ≠ g.content := fun he => h (by rw [he])
      simp [filecmp_cmp, h, hne]

/-- C1, divergence of the implemented candidate order from the claimed
ascending-size order, shown on a source directory holding b of one byte
and a of two bytes with an empty target directory.  The sort key of
line 130, itemgetter(1) on a (size, path) tuple, is the path string, so
the candidate sequence places the two-byte L slash a before the one-byte
L slash b and the unmatched report comes out in path order, not in the
ascending-size order the claim and the comments of lines 8-20 and 129
state. -/
theorem c1_sort_key_divergence :
    candidate_list "L" (Tree.mk [⟨"b", [0], 0⟩, ⟨"a", [0, 0], 0⟩] .nil) false
      = [(2, ⟨"L/a", [0, 0], 0⟩), (1, ⟨"L/b", [0], 0⟩)]
  ∧ find_unmatched "L" "R" (Tree.mk [⟨"b", [0], 0⟩, ⟨"a", [0, 0], 0⟩] .nil)
      (Tree.mk [] .nil) false = ["L/a", "L/b"]
  ∧ ["L/a", "L/b"] ≠ ["L/b", "L/a"] := by
  have hw : get_directory_file_paths "L" (Tree.mk [⟨"b", [0], 0⟩, ⟨"a", [0, 0], 0⟩] .nil) false
      = [⟨"L/b", [0], 0⟩, ⟨"L/a", [0, 0], 0⟩] := by
    simp [get_directory_file_paths, walk_subdirs, is_hidden_name, os_path_join]
  have hc : candidate_list "L" (Tree.mk [⟨"b", [0], 0⟩, ⟨"a", [0, 0], 0⟩] .nil) false
      = [(2, ⟨"L/a", [0, 0], 0⟩), (1, ⟨"L/b", [0], 0⟩)] := by
    simp only [candidate_list, sizes_paths, hw]
    decide
  have hr : sizes_paths "R" (Tree.mk [] .nil) false = [] := by
    simp [sizes_paths, get_directory_file_paths, walk_subdirs]
  refine ⟨hc, ?_, by decide⟩
  rw [find_unmatched, hc, hr]
  decide

/-- C6: with two valid roots, standard output is the two banner lines and
the progress bar followed by the report: the single no-unmatched line
when the UnmatchedList is empty, otherwise the header line followed by
exactly one source path per line in UnmatchedList order. -/
theorem c6_stdout_report (fs : String → Option Tree) (include_hidden : Bool)
    (directory_l directory_r : String) (t_l t_r : Tree)
    (h_l : fs directory_l = some t_l) (h_r : fs directory_r = some t_r) :
    (main_run fs include_hidden directory_l directory_r).2
      = ["Preprocessing...", "Comparing files...",
         progress_bar_line (candidate_list directory_l t_l include_hidden).length, ""]
        ++ (if find_unmatched directory_l directory_r t_l t_r include_hidden = []
            then ["No unmatched files."]
            else "Unmatched files:"
              :: find_unmatched directory_l directory_r t_l t_r include_hidden) := by
  simp [main_run, h_l, h_r, report]

/-- Witness for C6: a one-file source with no target counterpart, through
a concrete root-to-directory mapping. -/
theorem c6_witness :
    (main_run
        (fun s =>
          if s = "L" then some (Tree.mk [⟨"a", [5], 0⟩] .nil)
          else if s = "R" then some (Tree.mk [] .nil) else none)
        false "L" "R").2
      = ["Preprocessing...", "Comparing files...",
         progress_bar_line (candidate_list "L" (Tree.mk [⟨"a", [5], 0⟩] .nil) false).length, ""]
        ++ (if find_unmatched "L" "R" (Tree.mk [⟨"a", [5], 0⟩] .nil) (Tree.mk [] .nil) false = []
            then ["No unmatched files."]
            else "Unmatched files:"
              :: find_unmatched "L" "R" (Tree.mk [⟨"a", [5], 0⟩] .nil) (Tree.mk [] .nil) false) :=
  c6_stdout_report _ false "L" "R" _ _ rfl rfl

end Dircmp
